import Mathlib

/-!
Shallow embedding of `sift/view/TimelineItems.py` (classes `QTrackItem` and
`QFrameItem`), together with the pieces of `sift/view/TimelineCommon.py` that
the file imports (`TimelineCoordTransform`, the layout constants, the mime-type
tags and the `recv_mime` helper).  `TimelineCommon.py` is not among the source
files, so those pieces are modelled from the spec (sections 3 and 4.1) and are
marked as such in their doc comments.

Times and durations (`datetime` / `timedelta` in the source) are rational
numbers of seconds; scene coordinates are rationals.  Qt side effects are made
explicit: `prepareGeometryChange()` increments a `geomChanges` counter,
`QGraphicsItem.update()` (a repaint request) increments `updateCalls`, and a
Python exception escaping a handler is an `Option String` holding its message.
-/

namespace TimelineItems

/-- Modelled from the spec: the display-state enum `TimelineFrameState` lives in
`sift/view/TimelineCommon.py`, which is not among the sources; section 3 of the
spec lists the members. -/
inductive TimelineFrameState where
  | UNKNOWN
  | AVAILABLE
  | READY
  | CURRENT
  | MISSING
  | ERROR
  deriving DecidableEq

/-- A `QRectF` rectangle: origin `(x, y)`, width `w`, height `h`. -/
structure QRectF where
  x : ℚ
  y : ℚ
  w : ℚ
  h : ℚ
  deriving DecidableEq

/-- Modelled from the spec: `TimelineCoordTransform` lives in
`sift/view/TimelineCommon.py`, which is not among the sources.  Per spec
section 4.1 it is parameterized by an `origin_time` (mapped to coordinate 0)
and a `pixels_per_second` scale. -/
structure TimelineCoordTransform where
  origin_time : ℚ
  pixels_per_second : ℚ
  deriving DecidableEq

/-- Modelled from the spec, section 4.1: `time_to_coord(t) = (t - origin_time) *
pixels_per_second`. -/
def TimelineCoordTransform.time_to_coord (c : TimelineCoordTransform) (t : ℚ) : ℚ :=
  (t - c.origin_time) * c.pixels_per_second

/-- Modelled from the spec, section 4.1: `duration_to_length(d) =
d.total_seconds() * pixels_per_second`. -/
def TimelineCoordTransform.calc_pixel_duration (c : TimelineCoordTransform) (d : ℚ) : ℚ :=
  d * c.pixels_per_second

/-- Modelled from the spec, section 4.1: `interval_to_span(t, d) -> (x, w)`,
the combination of `time_to_coord` and `duration_to_length`; the source calls
it `calc_pixel_x_pos`. -/
def TimelineCoordTransform.calc_pixel_x_pos (c : TimelineCoordTransform) (t d : ℚ) : ℚ × ℚ :=
  (c.time_to_coord t, c.calc_pixel_duration d)

/-- Modelled from the spec: the fixed lane-height layout constant (the spec's
`TRACK_HEIGHT`, the source's `DEFAULT_TRACK_HEIGHT` from `TimelineCommon.py`).
Its numeric value is not given anywhere in the sources; the theorems below
refer to it only symbolically. -/
def DEFAULT_TRACK_HEIGHT : ℚ := 48

/-- Modelled from the spec: the fixed frame-height layout constant
(`DEFAULT_FRAME_HEIGHT` from `TimelineCommon.py`); value symbolic, as above. -/
def DEFAULT_FRAME_HEIGHT : ℚ := 40

/-- `QFrameItem`: display state, coordinate transform reference, start time,
duration, relative bounds, position relative to the owning track, plus the two
explicit effect counters (`prepareGeometryChange` and `update` calls). -/
structure QFrameItem where
  state : TimelineFrameState
  scale : TimelineCoordTransform
  start : ℚ
  duration : ℚ
  bounds : QRectF
  pos : ℚ × ℚ
  geomChanges : ℕ
  updateCalls : ℕ
  deriving DecidableEq

/-- Property `t` of `QFrameItem`: the start time. -/
def QFrameItem.t (f : QFrameItem) : ℚ :=
  f.start

/-- Property `d` of `QFrameItem`: the duration. -/
def QFrameItem.d (f : QFrameItem) : ℚ :=
  f.duration

/-- Property `td` of `QFrameItem`: the `(start, duration)` pair. -/
def QFrameItem.td (f : QFrameItem) : ℚ × ℚ :=
  (f.start, f.duration)

/-- The `state` property setter of `QFrameItem`: when the new value differs
from the stored one, store it and request a repaint (`self.update()`);
otherwise do nothing. -/
def QFrameItem.set_state (f : QFrameItem) (new_state : TimelineFrameState) : QFrameItem :=
  if new_state ≠ f.state then
    { f with state := new_state, updateCalls := f.updateCalls + 1 }
  else
    f

/-- `QFrameItem.update_bounds`: recompute the relative bounds rectangle from
the current scaling; `prepareGeometryChange` only when the rectangle actually
changed.  (The source also accepts `old_bounds is None`, which cannot occur
since the class default is an empty `QRectF`.) -/
def QFrameItem.update_bounds (f : QFrameItem) : QFrameItem :=
  let left : ℚ := 0
  let top : ℚ := -(DEFAULT_FRAME_HEIGHT / 2)
  let height : ℚ := DEFAULT_FRAME_HEIGHT
  let width : ℚ := f.scale.calc_pixel_duration f.duration
  let old_bounds := f.bounds
  let new_bounds := QRectF.mk left top width height
  if new_bounds ≠ old_bounds then
    { f with geomChanges := f.geomChanges + 1, bounds := new_bounds }
  else
    f

/-- `QTrackItem`: the coordinate transform, identity, z rank, the two padding
constants (`_left_pad` = 1 hour, `_right_pad` = 5 minutes in the source), the
owned frames, scene position, relative bounds, the `_dragging` flag, and the
`prepareGeometryChange` counter. -/
structure QTrackItem where
  scale : TimelineCoordTransform
  uuid : ℕ
  z : ℤ
  left_pad : ℚ
  right_pad : ℚ
  frames : List QFrameItem
  pos : ℚ × ℚ
  bounds : QRectF
  dragging : Bool
  geomChanges : ℕ
  deriving DecidableEq

/-- One iteration of the scan in `QTrackItem.time_extent_of_frames`:
`s = t if s is None else min(t, s)` and `e = t + d if e is None else
max(e, t + d)` where `t, d = child.td`. -/
def extentStep (se : Option ℚ × Option ℚ) (child : QFrameItem) : Option ℚ × Option ℚ :=
  let t := child.td.1
  let d := child.td.2
  (some (match se.1 with
         | none => t
         | some s => min t s),
   some (match se.2 with
         | none => t + d
         | some e => max e (t + d)))

/-- `QTrackItem.time_extent_of_frames`: scan the owned frames accumulating the
minimum start `s` and maximum end `e`; return `(None, None)` when the track is
empty, else `(s, e - s)`. -/
def QTrackItem.time_extent_of_frames (track : QTrackItem) : Option ℚ × Option ℚ :=
  match track.frames.foldl extentStep (none, none) with
  | (some s, some e) => (some s, some (e - s))
  | _ => (none, none)

/-- `QTrackItem.update_pos_bounds`: if the track has no extent, return without
touching anything; otherwise `prepareGeometryChange`, set the position to
`(frames_left, z * DEFAULT_TRACK_HEIGHT + DEFAULT_TRACK_HEIGHT / 2)` and the
relative bounds to `QRectF(track_left - frames_left, -DEFAULT_TRACK_HEIGHT / 2,
track_width, DEFAULT_TRACK_HEIGHT)`, where `(frames_left, frames_width)` and
`(track_left, track_width)` are `calc_pixel_x_pos` of the extent and of the
padded extent. -/
def QTrackItem.update_pos_bounds (track : QTrackItem) : QTrackItem :=
  match track.time_extent_of_frames with
  | (some t, some d) =>
      let top : ℚ := (track.z : ℚ) * DEFAULT_TRACK_HEIGHT
      let frames_span := track.scale.calc_pixel_x_pos t d
      let padded_span :=
        track.scale.calc_pixel_x_pos (t - track.left_pad) (d + track.left_pad + track.right_pad)
      { track with
          geomChanges := track.geomChanges + 1,
          pos := (frames_span.1, top + DEFAULT_TRACK_HEIGHT / 2),
          bounds := QRectF.mk (padded_span.1 - frames_span.1) (-(DEFAULT_TRACK_HEIGHT / 2))
                      padded_span.2 DEFAULT_TRACK_HEIGHT }
  | _ => track

/-- `QTrackItem.update_frame_positions` called with no explicit frames: for
every owned frame, `prepareGeometryChange` and `setPos(x - myx, 0.0)` where
`x` is the first component of `calc_pixel_x_pos(frame.t)` (the width being
discarded, `x` is `time_to_coord(frame.t)`) and `myx` is the track's scene x
coordinate read before the loop. -/
def QTrackItem.update_frame_positions (track : QTrackItem) : QTrackItem :=
  let myx := track.pos.1
  { track with
      frames := track.frames.map fun frame =>
        let x := track.scale.time_to_coord frame.t
        { frame with geomChanges := frame.geomChanges + 1, pos := (x - myx, 0) } }

/-- Setting the `state` property of the frame at index `i` of a track's frame
list (out-of-range indices leave the track unchanged).  This is the composite
operation claims about tracks and state assignment quantify over. -/
def QTrackItem.set_frame_state (track : QTrackItem) (i : ℕ) (ns : TimelineFrameState) :
    QTrackItem :=
  match track.frames.get? i with
  | some f => { track with frames := track.frames.set i (f.set_state ns) }
  | none => track

/-- A drag payload: a colormap reference, a dragged track's identity, or
arbitrary opaque bytes of some other kind. -/
inductive MimePayload where
  | colormap (ref : ℕ)
  | track (uuid : ℕ)
  | blob (text : String)
  deriving DecidableEq

/-- `QMimeData`: an association of mime format tags to payloads.  The format
list (payload kinds) is the keys; `hasFormat` consults only the keys. -/
structure QMimeData where
  entries : List (String × MimePayload)
  deriving DecidableEq

/-- Modelled from the spec: the colormap-payload mime tag
(`MIMETYPE_TIMELINE_COLORMAP` from `TimelineCommon.py`); its exact text is not
given, only that it is a distinguished kind tag. -/
def MIMETYPE_TIMELINE_COLORMAP : String := "application/sift.timeline.colormap"

/-- Modelled from the spec: the track-reorder-payload mime tag
(`MIMETYPE_TIMELINE_TRACK` from `TimelineCommon.py`). -/
def MIMETYPE_TIMELINE_TRACK : String := "application/sift.timeline.track"

/-- `QMimeData.hasFormat`: whether a payload of the given kind is present. -/
def QMimeData.hasFormat (m : QMimeData) (fmt : String) : Bool :=
  (m.entries.lookup fmt).isSome

/-- The list of payload kinds carried (`QMimeData.formats`). -/
def QMimeData.formats (m : QMimeData) : List String :=
  m.entries.map Prod.fst

/-- Modelled from the spec: `recv_mime(event, mimetype)` from
`TimelineCommon.py` decodes and returns the payload of the given kind carried
by the event's mime data, or `None` when that kind is absent. -/
def recv_mime (m : QMimeData) (fmt : String) : Option MimePayload :=
  m.entries.lookup fmt

/-- `QTrackItem.dragEnterEvent`: set `_dragging = True`, then accept exactly
when the mime data carries the colormap kind or the track kind.  Returns the
new track state and the acceptance decision (`event.setAccepted`). -/
def QTrackItem.dragEnterEvent (track : QTrackItem) (mime : QMimeData) : QTrackItem × Bool :=
  let track2 := { track with dragging := true }
  if mime.hasFormat MIMETYPE_TIMELINE_COLORMAP then (track2, true)
  else if mime.hasFormat MIMETYPE_TIMELINE_TRACK then (track2, true)
  else (track2, false)

/-- `QTrackItem.dragLeaveEvent`: clear `_dragging`. -/
def QTrackItem.dragLeaveEvent (track : QTrackItem) : QTrackItem :=
  { track with dragging := false }

/-- `QTrackItem.set_colormap`: the source body only logs
"set colormap from dragged colormap not yet implemented"; no state changes. -/
def QTrackItem.set_colormap (track : QTrackItem) (_cmap : MimePayload) : QTrackItem :=
  track

/-- `QTrackItem.insert_track_before`: the source body only logs
"reorder tracks usingdragged track not yet implemented"; no state changes and
no call into the scene's reorder. -/
def QTrackItem.insert_track_before (track : QTrackItem) (_t : MimePayload) : QTrackItem :=
  track

/-- The Python exception message raised by the last statement of `dropEvent`:
`pkl.loads(event.mimeData().data())` calls `QMimeData.data()` without its
required mimetype argument. -/
def qMimeDataMissingArg : String :=
  "TypeError: QMimeData.data() missing required mimetype argument"

/-- `QTrackItem.dropEvent`: a colormap payload is routed to `set_colormap` and
the handler returns; otherwise a track payload (if any) is routed to
`insert_track_before`, after which control falls through to
`content = pkl.loads(event.mimeData().data())`, which raises (second
component `some message`) before `event.setAccepted(False)` is reached. -/
def QTrackItem.dropEvent (track : QTrackItem) (mime : QMimeData) : QTrackItem × Option String :=
  match recv_mime mime MIMETYPE_TIMELINE_COLORMAP with
  | some colormap => (track.set_colormap colormap, none)
  | none =>
      let track2 :=
        match recv_mime mime MIMETYPE_TIMELINE_TRACK with
        | some new_track_before => track.insert_track_before new_track_before
        | none => track
      (track2, some qMimeDataMissingArg)

/-! ## Helper lemmas about the extent scan -/

/-- Once both accumulators are set, the scan computes a running minimum of the
starts and a running maximum of the ends. -/
lemma foldl_extentStep_some (l : List QFrameItem) (s e : ℚ) :
    l.foldl extentStep (some s, some e) =
      (some (l.foldl (fun a g => min g.t a) s),
       some (l.foldl (fun a g => max a (g.t + g.d)) e)) := by
  induction l generalizing s e with
  | nil => rfl
  | cons f fs ih =>
      have hstep : extentStep (some s, some e) f = (some (min f.t s), some (max e (f.t + f.d))) :=
        rfl
      simp only [List.foldl_cons, hstep, ih]

lemma foldl_min_le_init (l : List QFrameItem) (s : ℚ) :
    l.foldl (fun a g => min g.t a) s ≤ s := by
  induction l generalizing s with
  | nil => exact le_refl s
  | cons f fs ih =>
      simp only [List.foldl_cons]
      exact le_trans (ih (min f.t s)) (min_le_right _ _)

lemma foldl_min_le_mem (l : List QFrameItem) (s : ℚ) :
    ∀ f ∈ l, l.foldl (fun a g => min g.t a) s ≤ f.t := by
  induction l generalizing s with
  | nil => intro f hf; cases hf
  | cons g gs ih =>
      intro f hf
      simp only [List.foldl_cons]
      rcases List.mem_cons.mp hf with h | h
      · subst h
        exact le_trans (foldl_min_le_init gs _) (min_le_left _ _)
      · exact ih (min g.t s) f h

lemma foldl_min_mem (l : List QFrameItem) (s : ℚ) :
    l.foldl (fun a g => min g.t a) s = s ∨
      ∃ f ∈ l, l.foldl (fun a g => min g.t a) s = f.t := by
  induction l generalizing s with
  | nil => exact Or.inl rfl
  | cons g gs ih =>
      simp only [List.foldl_cons]
      rcases ih (min g.t s) with h | ⟨f, hf, h⟩
      · rcases min_choice g.t s with hm | hm
        · exact Or.inr ⟨g, List.mem_cons_self g gs, h.trans hm⟩
        · exact Or.inl (h.trans hm)
      · exact Or.inr ⟨f, List.mem_cons_of_mem g hf, h⟩

lemma le_foldl_max_init (l : List QFrameItem) (e : ℚ) :
    e ≤ l.foldl (fun a g => max a (g.t + g.d)) e := by
  induction l generalizing e with
  | nil => exact le_refl e
  | cons f fs ih =>
      simp only [List.foldl_cons]
      exact le_trans (le_max_left _ _) (ih (max e (f.t + f.d)))

lemma mem_le_foldl_max (l : List QFrameItem) (e : ℚ) :
    ∀ f ∈ l, f.t + f.d ≤ l.foldl (fun a g => max a (g.t + g.d)) e := by
  induction l generalizing e with
  | nil => intro f hf; cases hf
  | cons g gs ih =>
      intro f hf
      simp only [List.foldl_cons]
      rcases List.mem_cons.mp hf with h | h
      · subst h
        exact le_trans (le_max_right _ _) (le_foldl_max_init gs _)
      · exact ih (max e (g.t + g.d)) f h

lemma foldl_max_mem (l : List QFrameItem) (e : ℚ) :
    l.foldl (fun a g => max a (g.t + g.d)) e = e ∨
      ∃ f ∈ l, l.foldl (fun a g => max a (g.t + g.d)) e = f.t + f.d := by
  induction l generalizing e with
  | nil => exact Or.inl rfl
  | cons g gs ih =>
      simp only [List.foldl_cons]
      rcases ih (max e (g.t + g.d)) with h | ⟨f, hf, h⟩
      · rcases max_choice e (g.t + g.d) with hm | hm
        · exact Or.inl (h.trans hm)
        · exact Or.inr ⟨g, List.mem_cons_self g gs, h.trans hm⟩
      · exact Or.inr ⟨f, List.mem_cons_of_mem g hf, h⟩

/-- Closed form of `time_extent_of_frames` on a track with at least one frame. -/
lemma time_extent_of_frames_cons (track : QTrackItem) (f : QFrameItem) (fs : List QFrameItem)
    (h : track.frames = f :: fs) :
    track.time_extent_of_frames =
      (some (fs.foldl (fun a g => min g.t a) f.t),
       some (fs.foldl (fun a g => max a (g.t + g.d)) (f.t + f.d) -
             fs.foldl (fun a g => min g.t a) f.t)) := by
  unfold QTrackItem.time_extent_of_frames
  rw [h]
  simp only [List.foldl_cons]
  have hstep : extentStep (none, none) f = (some f.t, some (f.t + f.d)) := rfl
  rw [hstep, foldl_extentStep_some]

/-- A track with no frames reports the undefined extent `(None, None)`. -/
lemma time_extent_of_frames_nil (track : QTrackItem) (h : track.frames = []) :
    track.time_extent_of_frames = (none, none) := by
  unfold QTrackItem.time_extent_of_frames
  rw [h]
  rfl

/-- A track with at least one frame has a defined extent. -/
lemma time_extent_of_frames_isSome (track : QTrackItem) (h : track.frames ≠ []) :
    ∃ t d, track.time_extent_of_frames = (some t, some d) := by
  cases hfr : track.frames with
  | nil => exact absurd hfr h
  | cons f fs => exact ⟨_, _, time_extent_of_frames_cons track f fs hfr⟩

/-- The extent scan reads nothing of a frame but its `(start, duration)`. -/
lemma foldl_extentStep_congr (l1 l2 : List QFrameItem)
    (h : l1.map QFrameItem.td = l2.map QFrameItem.td) (init : Option ℚ × Option ℚ) :
    l1.foldl extentStep init = l2.foldl extentStep init := by
  induction l1 generalizing l2 init with
  | nil =>
      cases l2 with
      | nil => rfl
      | cons b t2 => simp at h
  | cons f fs ih =>
      cases l2 with
      | nil => simp at h
      | cons g gs =>
          simp only [List.map_cons, List.cons.injEq] at h
          obtain ⟨h1, h2⟩ := h
          simp only [List.foldl_cons]
          have hstep : extentStep init f = extentStep init g := by
            unfold extentStep
            rw [h1]
          rw [hstep]
          exact ih gs h2 _

/-- The extent depends only on the `(start, duration)` data of the frames. -/
lemma time_extent_congr_td (t1 t2 : QTrackItem)
    (h : t1.frames.map QFrameItem.td = t2.frames.map QFrameItem.td) :
    t1.time_extent_of_frames = t2.time_extent_of_frames := by
  unfold QTrackItem.time_extent_of_frames
  rw [foldl_extentStep_congr t1.frames t2.frames h]

/-! ## Helper lemmas about `update_pos_bounds` -/

/-- With an undefined extent, `update_pos_bounds` returns the track unchanged. -/
lemma update_pos_bounds_of_none (track : QTrackItem)
    (h : track.time_extent_of_frames = (none, none)) :
    track.update_pos_bounds = track := by
  unfold QTrackItem.update_pos_bounds
  rw [h]

/-- With a defined extent, the effect of `update_pos_bounds` in closed form. -/
lemma update_pos_bounds_of_extent (track : QTrackItem) (t d : ℚ)
    (h : track.time_extent_of_frames = (some t, some d)) :
    track.update_pos_bounds =
      { track with
          geomChanges := track.geomChanges + 1,
          pos := ((track.scale.calc_pixel_x_pos t d).1,
                  (track.z : ℚ) * DEFAULT_TRACK_HEIGHT + DEFAULT_TRACK_HEIGHT / 2),
          bounds := QRectF.mk
            ((track.scale.calc_pixel_x_pos (t - track.left_pad)
                (d + track.left_pad + track.right_pad)).1 -
              (track.scale.calc_pixel_x_pos t d).1)
            (-(DEFAULT_TRACK_HEIGHT / 2))
            ((track.scale.calc_pixel_x_pos (t - track.left_pad)
                (d + track.left_pad + track.right_pad)).2)
            DEFAULT_TRACK_HEIGHT } := by
  unfold QTrackItem.update_pos_bounds
  rw [h]

lemma update_pos_bounds_frames (track : QTrackItem) :
    track.update_pos_bounds.frames = track.frames := by
  unfold QTrackItem.update_pos_bounds
  split <;> rfl

lemma update_pos_bounds_scale (track : QTrackItem) :
    track.update_pos_bounds.scale = track.scale := by
  unfold QTrackItem.update_pos_bounds
  split <;> rfl

lemma update_pos_bounds_z (track : QTrackItem) :
    track.update_pos_bounds.z = track.z := by
  unfold QTrackItem.update_pos_bounds
  split <;> rfl

lemma update_pos_bounds_left_pad (track : QTrackItem) :
    track.update_pos_bounds.left_pad = track.left_pad := by
  unfold QTrackItem.update_pos_bounds
  split <;> rfl

lemma update_pos_bounds_right_pad (track : QTrackItem) :
    track.update_pos_bounds.right_pad = track.right_pad := by
  unfold QTrackItem.update_pos_bounds
  split <;> rfl

/-! ## Concrete instances used by witnesses and counterexamples -/

/-- A concrete transform: origin at time 0, two pixels per second. -/
def scaleA : TimelineCoordTransform := ⟨0, 2⟩

/-- A concrete frame: starts at 10 s, lasts 5 s. -/
def frameA : QFrameItem :=
  ⟨TimelineFrameState.AVAILABLE, scaleA, 10, 5, ⟨0, 0, 0, 0⟩, (0, 0), 0, 0⟩

/-- A concrete frame: starts at 3 s, lasts 4 s. -/
def frameB : QFrameItem :=
  ⟨TimelineFrameState.READY, scaleA, 3, 4, ⟨0, 0, 0, 0⟩, (0, 0), 0, 0⟩

/-- A concrete track holding `frameA` and `frameB`. -/
def trackA : QTrackItem :=
  ⟨scaleA, 1, 1, 3600, 300, [frameA, frameB], (0, 0), ⟨0, 0, 0, 0⟩, false, 0⟩

/-- A concrete track holding no frames. -/
def trackEmpty : QTrackItem :=
  ⟨scaleA, 2, 0, 3600, 300, [], (0, 0), ⟨0, 0, 0, 0⟩, false, 0⟩

/-! ## Claim theorems -/

/-- C2: `time_extent_of_frames` returns `(None, None)` on a track with no
frames, and on a track with at least one frame it returns
`(min start, max (start + duration) - min start)` over the owned frames. -/
theorem time_extent_of_frames_min_max (track : QTrackItem) :
    (track.frames = [] → track.time_extent_of_frames = (none, none)) ∧
    (track.frames ≠ [] →
      ∃ s e, track.time_extent_of_frames = (some s, some (e - s)) ∧
        s ∈ track.frames.map QFrameItem.t ∧
        (∀ f ∈ track.frames, s ≤ f.t) ∧
        e ∈ track.frames.map (fun f => f.t + f.d) ∧
        (∀ f ∈ track.frames, f.t + f.d ≤ e)) := by
  constructor
  · exact time_extent_of_frames_nil track
  · intro h
    cases hfr : track.frames with
    | nil => exact absurd hfr h
    | cons f fs =>
        have hext := time_extent_of_frames_cons track f fs hfr
        refine ⟨_, _, hext, ?_, ?_, ?_, ?_⟩
        · rcases foldl_min_mem fs f.t with hm | ⟨g, hg, hm⟩
          · rw [hm]
            exact List.mem_map_of_mem QFrameItem.t (List.mem_cons_self f fs)
          · rw [hm]
            exact List.mem_map_of_mem QFrameItem.t (List.mem_cons_of_mem f hg)
        · intro fr hfr2
          rcases List.mem_cons.mp hfr2 with h2 | h2
          · rw [h2]
            exact foldl_min_le_init fs f.t
          · exact foldl_min_le_mem fs f.t fr h2
        · rcases foldl_max_mem fs (f.t + f.d) with hm | ⟨g, hg, hm⟩
          · rw [hm]
            exact List.mem_map_of_mem (fun f => f.t + f.d) (List.mem_cons_self f fs)
          · rw [hm]
            exact List.mem_map_of_mem (fun f => f.t + f.d) (List.mem_cons_of_mem f hg)
        · intro fr hfr2
          rcases List.mem_cons.mp hfr2 with h2 | h2
          · rw [h2]
            exact le_foldl_max_init fs (f.t + f.d)
          · exact mem_le_foldl_max fs (f.t + f.d) fr h2

theorem time_extent_of_frames_min_max_witness :
    trackEmpty.time_extent_of_frames = (none, none) ∧
    (∃ s e, trackA.time_extent_of_frames = (some s, some (e - s)) ∧
      s ∈ trackA.frames.map QFrameItem.t ∧
      (∀ f ∈ trackA.frames, s ≤ f.t) ∧
      e ∈ trackA.frames.map (fun f => f.t + f.d) ∧
      (∀ f ∈ trackA.frames, f.t + f.d ≤ e)) :=
  ⟨(time_extent_of_frames_min_max trackEmpty).1 rfl,
   (time_extent_of_frames_min_max trackA).2 (List.cons_ne_nil _ _)⟩

/-- C7: on a track with no frames the extent is the undefined `(None, None)`
and `update_pos_bounds` returns early, leaving the whole track state (in
particular its position and bounds) untouched and issuing no
geometry-change call. -/
theorem empty_track_extent_and_pos_bounds (track : QTrackItem) (h : track.frames = []) :
    track.time_extent_of_frames = (none, none) ∧
    track.update_pos_bounds = track := by
  have h1 := time_extent_of_frames_nil track h
  exact ⟨h1, update_pos_bounds_of_none track h1⟩

theorem empty_track_extent_and_pos_bounds_witness :
    trackEmpty.time_extent_of_frames = (none, none) ∧
    trackEmpty.update_pos_bounds = trackEmpty :=
  empty_track_extent_and_pos_bounds trackEmpty rfl

/-- C1: on a track with at least one frame, `update_pos_bounds` sets the
anchor position to `frames_span.x` horizontally and
`z * DEFAULT_TRACK_HEIGHT + DEFAULT_TRACK_HEIGHT / 2` vertically, and sets the
relative bounds rectangle to start at `padded_span.x - frames_span.x`, with
width `padded_span.w`, spanning vertically from `-DEFAULT_TRACK_HEIGHT / 2`
over height `DEFAULT_TRACK_HEIGHT`, where `frames_span` and `padded_span` are
the transform's spans of the extent `(t, d)` and of
`(t - left_pad, d + left_pad + right_pad)`. -/
theorem update_pos_bounds_anchor_and_bounds (track : QTrackItem) (h : track.frames ≠ []) :
    ∃ t d, track.time_extent_of_frames = (some t, some d) ∧
      track.update_pos_bounds.pos =
        ((track.scale.calc_pixel_x_pos t d).1,
         (track.z : ℚ) * DEFAULT_TRACK_HEIGHT + DEFAULT_TRACK_HEIGHT / 2) ∧
      track.update_pos_bounds.bounds =
        QRectF.mk
          ((track.scale.calc_pixel_x_pos (t - track.left_pad)
              (d + track.left_pad + track.right_pad)).1 -
            (track.scale.calc_pixel_x_pos t d).1)
          (-(DEFAULT_TRACK_HEIGHT / 2))
          ((track.scale.calc_pixel_x_pos (t - track.left_pad)
              (d + track.left_pad + track.right_pad)).2)
          DEFAULT_TRACK_HEIGHT := by
  obtain ⟨t, d, hex⟩ := time_extent_of_frames_isSome track h
  refine ⟨t, d, hex, ?_, ?_⟩ <;> rw [update_pos_bounds_of_extent track t d hex]

theorem update_pos_bounds_anchor_and_bounds_witness :
    ∃ t d, trackA.time_extent_of_frames = (some t, some d) ∧
      trackA.update_pos_bounds.pos =
        ((trackA.scale.calc_pixel_x_pos t d).1,
         (trackA.z : ℚ) * DEFAULT_TRACK_HEIGHT + DEFAULT_TRACK_HEIGHT / 2) ∧
      trackA.update_pos_bounds.bounds =
        QRectF.mk
          ((trackA.scale.calc_pixel_x_pos (t - trackA.left_pad)
              (d + trackA.left_pad + trackA.right_pad)).1 -
            (trackA.scale.calc_pixel_x_pos t d).1)
          (-(DEFAULT_TRACK_HEIGHT / 2))
          ((trackA.scale.calc_pixel_x_pos (t - trackA.left_pad)
              (d + trackA.left_pad + trackA.right_pad)).2)
          DEFAULT_TRACK_HEIGHT :=
  update_pos_bounds_anchor_and_bounds trackA (List.cons_ne_nil _ _)

/-- C3 (counterexample): on a concrete one-change-free double recompute the
bounds are indeed bit-identical, but the second `update_pos_bounds` call still
performs a geometry-change call (`prepareGeometryChange` runs unconditionally
whenever the track has frames), so the claimed absence of needless
invalidation of dependents is false. -/
theorem update_pos_bounds_second_call_notifies :
    trackA.update_pos_bounds.update_pos_bounds.bounds = trackA.update_pos_bounds.bounds ∧
    trackA.update_pos_bounds.update_pos_bounds.geomChanges =
      trackA.update_pos_bounds.geomChanges + 1 := by
  obtain ⟨t, d, hex⟩ := time_extent_of_frames_isSome trackA (List.cons_ne_nil _ _)
  have h1 := update_pos_bounds_of_extent trackA t d hex
  have hext2 : trackA.update_pos_bounds.time_extent_of_frames = (some t, some d) := by
    have hc := time_extent_congr_td trackA.update_pos_bounds trackA (by
      rw [update_pos_bounds_frames])
    rw [hc, hex]
  have h3 := update_pos_bounds_of_extent trackA.update_pos_bounds t d hext2
  constructor <;> rw [h3, h1]

/-- C3 (amended): calling `update_pos_bounds` twice with no intervening change
to the frames or the transform yields bit-identical bounds and position both
times; however the second call is not free of invalidation: whenever the track
has at least one frame it still performs a geometry-change call. -/
theorem update_pos_bounds_idempotent_bounds (track : QTrackItem) :
    track.update_pos_bounds.update_pos_bounds.bounds = track.update_pos_bounds.bounds ∧
    track.update_pos_bounds.update_pos_bounds.pos = track.update_pos_bounds.pos ∧
    (track.frames ≠ [] →
      track.update_pos_bounds.update_pos_bounds.geomChanges =
        track.update_pos_bounds.geomChanges + 1) := by
  cases hfr : track.frames with
  | nil =>
      have h0 := time_extent_of_frames_nil track hfr
      have h1 := update_pos_bounds_of_none track h0
      refine ⟨?_, ?_, fun hc => absurd rfl hc⟩ <;> simp only [h1]
  | cons f fs =>
      obtain ⟨t, d, hex⟩ := time_extent_of_frames_isSome track (by
        rw [hfr]
        exact List.cons_ne_nil f fs)
      have h1 := update_pos_bounds_of_extent track t d hex
      have hext : track.update_pos_bounds.time_extent_of_frames = (some t, some d) := by
        have hc := time_extent_congr_td track.update_pos_bounds track (by
          rw [update_pos_bounds_frames])
        rw [hc, hex]
      have h3 := update_pos_bounds_of_extent track.update_pos_bounds t d hext
      refine ⟨?_, ?_, fun _ => ?_⟩ <;> rw [h3, h1]

theorem update_pos_bounds_idempotent_bounds_witness :
    trackA.update_pos_bounds.update_pos_bounds.pos = trackA.update_pos_bounds.pos ∧
    trackA.update_pos_bounds.update_pos_bounds.geomChanges =
      trackA.update_pos_bounds.geomChanges + 1 :=
  ⟨(update_pos_bounds_idempotent_bounds trackA).2.1,
   (update_pos_bounds_idempotent_bounds trackA).2.2 (List.cons_ne_nil _ _)⟩

/-! ## Helper lemmas for frames, drag and drop -/

lemma set_state_td (f : QFrameItem) (ns : TimelineFrameState) :
    (f.set_state ns).td = f.td := by
  unfold QFrameItem.set_state
  split <;> rfl

lemma set_state_bounds (f : QFrameItem) (ns : TimelineFrameState) :
    (f.set_state ns).bounds = f.bounds := by
  unfold QFrameItem.set_state
  split <;> rfl

lemma set_state_pos (f : QFrameItem) (ns : TimelineFrameState) :
    (f.set_state ns).pos = f.pos := by
  unfold QFrameItem.set_state
  split <;> rfl

lemma set_state_geomChanges (f : QFrameItem) (ns : TimelineFrameState) :
    (f.set_state ns).geomChanges = f.geomChanges := by
  unfold QFrameItem.set_state
  split <;> rfl

/-- Replacing one list element by another with the same projection leaves the
projected list unchanged. -/
lemma map_set_proj {γ : Type} (proj : QFrameItem → γ) (l : List QFrameItem) (i : ℕ)
    (f g : QFrameItem) (hget : l.get? i = some f) (hproj : proj g = proj f) :
    (l.set i g).map proj = l.map proj := by
  induction l generalizing i with
  | nil => cases hget
  | cons a as ih =>
      cases i with
      | zero =>
          simp only [List.get?_cons_zero, Option.some.injEq] at hget
          subst hget
          simp only [List.set_cons_zero, List.map_cons, hproj]
      | succ n =>
          simp only [List.get?_cons_succ] at hget
          simp only [List.set_cons_succ, List.map_cons, ih n hget]

/-- `List.lookup` success depends only on the keys, not on the stored values. -/
lemma lookup_isSome_of_keys_eq (l1 l2 : List (String × MimePayload))
    (h : l1.map Prod.fst = l2.map Prod.fst) (k : String) :
    (l1.lookup k).isSome = (l2.lookup k).isSome := by
  induction l1 generalizing l2 with
  | nil =>
      cases l2 with
      | nil => rfl
      | cons b t2 => simp at h
  | cons a t1 ih =>
      cases l2 with
      | nil => simp at h
      | cons b t2 =>
          obtain ⟨a1, a2⟩ := a
          obtain ⟨b1, b2⟩ := b
          simp only [List.map_cons, List.cons.injEq] at h
          obtain ⟨h1, h2⟩ := h
          simp only [List.lookup, h1]
          cases k == b1 with
          | true => rfl
          | false => exact ih t2 h2

lemma dragEnterEvent_state (track : QTrackItem) (mime : QMimeData) :
    (track.dragEnterEvent mime).1 = { track with dragging := true } := by
  unfold QTrackItem.dragEnterEvent
  split
  · rfl
  · split <;> rfl

lemma dragEnterEvent_decision (track : QTrackItem) (mime : QMimeData) :
    (track.dragEnterEvent mime).2 =
      (mime.hasFormat MIMETYPE_TIMELINE_COLORMAP || mime.hasFormat MIMETYPE_TIMELINE_TRACK) := by
  unfold QTrackItem.dragEnterEvent
  cases h1 : mime.hasFormat MIMETYPE_TIMELINE_COLORMAP <;>
    cases h2 : mime.hasFormat MIMETYPE_TIMELINE_TRACK <;>
      simp [h1, h2]

/-! ## Further concrete instances -/

/-- Mime data carrying a colormap payload. -/
def mimeColormap : QMimeData := ⟨[(MIMETYPE_TIMELINE_COLORMAP, MimePayload.colormap 1)]⟩

/-- Mime data carrying a different colormap payload under the same kind tag. -/
def mimeColormap2 : QMimeData := ⟨[(MIMETYPE_TIMELINE_COLORMAP, MimePayload.colormap 2)]⟩

/-- Mime data of an unrecognized kind. -/
def mimeBlob : QMimeData := ⟨[("text/plain", MimePayload.blob "hello")]⟩

/-- Mime data carrying a track-reorder payload naming source track 7. -/
def mimeTrack : QMimeData := ⟨[(MIMETYPE_TIMELINE_TRACK, MimePayload.track 7)]⟩

/-! ## Claim theorems (continued) -/

/-- C4: after `update_frame_positions`, the frame at each index is the old
frame repositioned to `(time_to_coord(start) - anchor_x, 0)` relative to the
track, where `anchor_x` is the track's scene x position; in particular every
frame's local y coordinate is 0. -/
theorem update_frame_positions_relative (track : QTrackItem) (i : ℕ) :
    (track.update_frame_positions).frames.get? i =
      (track.frames.get? i).map (fun frame =>
        { frame with
            geomChanges := frame.geomChanges + 1,
            pos := (track.scale.time_to_coord frame.t - track.pos.1, 0) }) := by
  unfold QTrackItem.update_frame_positions
  exact List.get?_map _ _ _

/-- C5 (counterexample): `dragEnterEvent` is not free of side effects on the
track: on a track whose `_dragging` flag is down, one invocation changes the
track's state (it raises the flag). -/
theorem dragEnterEvent_mutates_dragging :
    (trackEmpty.dragEnterEvent mimeColormap).1 ≠ trackEmpty := by
  intro h
  have h2 : (trackEmpty.dragEnterEvent mimeColormap).1.dragging = trackEmpty.dragging := by
    rw [h]
  rw [dragEnterEvent_state trackEmpty mimeColormap] at h2
  exact absurd h2 (by decide)

/-- C5 (amended): the acceptance decision of `dragEnterEvent` is a predicate
on the payload kinds only (two mime payloads with the same format list get the
same decision, whatever their contents), and the handler's only effect on the
track is to raise the `_dragging` flag — so from the second invocation on it
leaves the track unchanged, but it is not side-effect free. -/
theorem dragEnterEvent_kind_only_and_flag (track : QTrackItem) (m1 m2 : QMimeData)
    (h : m1.formats = m2.formats) :
    (track.dragEnterEvent m1).2 = (track.dragEnterEvent m2).2 ∧
    (track.dragEnterEvent m1).1 = { track with dragging := true } := by
  constructor
  · rw [dragEnterEvent_decision, dragEnterEvent_decision]
    have hc := lookup_isSome_of_keys_eq m1.entries m2.entries h MIMETYPE_TIMELINE_COLORMAP
    have ht := lookup_isSome_of_keys_eq m1.entries m2.entries h MIMETYPE_TIMELINE_TRACK
    unfold QMimeData.hasFormat
    rw [hc, ht]
  · exact dragEnterEvent_state track m1

theorem dragEnterEvent_kind_only_and_flag_witness :
    (trackA.dragEnterEvent mimeColormap).2 = (trackA.dragEnterEvent mimeColormap2).2 ∧
    (trackA.dragEnterEvent mimeColormap).1 = { trackA with dragging := true } :=
  dragEnterEvent_kind_only_and_flag trackA mimeColormap mimeColormap2 rfl

/-- C6: a payload of unrecognized kind is rejected by the acceptance
predicate, as claimed; but the drop handler does not complete silently: after
the two `recv_mime` probes return `None`, control reaches
`pkl.loads(event.mimeData().data())`, which raises a `TypeError`
(`QMimeData.data()` is called without its required mimetype argument), so the
drop raises instead of being silently ignored.  The track state itself is
unchanged. -/
theorem dropEvent_unknown_kind_raises :
    (trackA.dragEnterEvent mimeBlob).2 = false ∧
    trackA.dropEvent mimeBlob = (trackA, some qMimeDataMissingArg) := by
  exact ⟨by decide, by decide⟩

/-- C8: on a drop of a track-reorder payload the scene's reorder is never
invoked: `insert_track_before` only logs "not yet implemented" and changes
nothing, and the drop handler then falls through to the stray
`pkl.loads(event.mimeData().data())` line and raises a `TypeError`. -/
theorem dropEvent_track_payload_no_reorder :
    trackA.insert_track_before (MimePayload.track 7) = trackA ∧
    trackA.dropEvent mimeTrack = (trackA, some qMimeDataMissingArg) := by
  exact ⟨rfl, by decide⟩

/-- C9: setting the display state of an owned frame is repaint-only: the
track's time extent, position, bounds and geometry-change counter, and every
owned frame's bounds rectangle, position and geometry-change counter, are all
unchanged by the assignment. -/
theorem set_frame_state_no_relayout (track : QTrackItem) (i : ℕ) (ns : TimelineFrameState) :
    (track.set_frame_state i ns).time_extent_of_frames = track.time_extent_of_frames ∧
    (track.set_frame_state i ns).pos = track.pos ∧
    (track.set_frame_state i ns).bounds = track.bounds ∧
    (track.set_frame_state i ns).geomChanges = track.geomChanges ∧
    (track.set_frame_state i ns).frames.map (fun f => (f.bounds, f.pos, f.geomChanges)) =
      track.frames.map (fun f => (f.bounds, f.pos, f.geomChanges)) := by
  unfold QTrackItem.set_frame_state
  cases hget : track.frames.get? i with
  | none => exact ⟨rfl, rfl, rfl, rfl, rfl⟩
  | some f =>
      refine ⟨?_, rfl, rfl, rfl, ?_⟩
      · exact time_extent_congr_td _ _
          (map_set_proj QFrameItem.td track.frames i f (f.set_state ns) hget
            (set_state_td f ns))
      · exact map_set_proj (fun f => (f.bounds, f.pos, f.geomChanges)) track.frames i f
          (f.set_state ns) hget
          (by simp only [set_state_bounds, set_state_pos, set_state_geomChanges])

/-- C10: assigning the current state back is a complete no-op (state and
repaint counter unchanged), and a repaint is requested if and only if the new
value differs from the stored one. -/
theorem set_state_noop_and_repaint_iff (f : QFrameItem) (ns : TimelineFrameState) :
    f.set_state f.state = f ∧
    (f.set_state ns).updateCalls =
      (if ns = f.state then f.updateCalls else f.updateCalls + 1) := by
  constructor
  · simp [QFrameItem.set_state]
  · unfold QFrameItem.set_state
    by_cases h : ns = f.state
    · simp [h]
    · simp [h]

end TimelineItems
